import Mathlib

/-!
Verification of the Binance user-data-stream connection manager from
`ui/static/binance_user_stream.js` (module-level state `_userStreamWS`,
`_userStreamReconnectTimer`, `_reconnectDelayMs`, `_streamStartedOnce`,
`_keepaliveTimer` and the functions `stopKeepalive`, `startKeepalive`,
`ensureBinanceUserStreamStarted`, `closeUserStreamWS`, `connectUserStreamWS`,
`startBinanceUserStreamLive`, `stopBinanceUserStream`).

Modelling conventions:
* JS numbers are modelled as exact rationals (`ℚ`); the backoff factor `1.6`
  is the exact rational 8/5.
* Network calls (`fetch` + `res.json()`) are modelled by an oracle argument
  `Option Json`: `none` means the fetch or body parse threw (the `catch`
  path), `some v` means the body parsed to the JSON value `v`.
* Timer and socket handles are natural-number ids drawn from a `nextId`
  counter.  Besides the manager's own handle variables, the state tracks the
  browser runtime's view: which sockets are open, which force-closed sockets
  still have an undelivered `close` event, and which reconnect timeouts are
  scheduled and not yet fired or cleared, so that at-most-one-handle claims
  are about the runtime, not just about the `Option`-typed variables.
* The log sink (`appendWsLog`) receives formatted text; we record each call
  structurally (constructor + arguments) instead of replaying JS string
  interpolation.
* `await` suspension points are not interleaved: each entry point runs
  atomically with its network responses supplied by the oracle arguments
  (the page is single-threaded and no claim is about the suspension window).
-/

namespace AccuBot

/-- JSON values as produced by `JSON.parse`. -/
inductive Json where
  | null : Json
  | bool : Bool → Json
  | num : ℚ → Json
  | str : String → Json
  | arr : List Json → Json
  | obj : List (String × Json) → Json

/-- JS property read `v[k]` for non-null `v`, as an own-property lookup:
`none` is JS `undefined` (missing field, or any primitive/array receiver);
for duplicate keys `JSON.parse` keeps the last one.  Reading a property of
`null` throws in JS; call sites on possibly-null values handle that case
explicitly. -/
def jsProp (v : Json) (k : String) : Option Json :=
  match v with
  | Json.obj kvs => kvs.foldl (fun acc p => if p.1 = k then some p.2 else acc) none
  | _ => none

/-- JS truthiness of a JSON value (`NaN` is not representable in `ℚ`). -/
def truthy : Json → Bool
  | Json.null => false
  | Json.bool b => b
  | Json.num q => !(q = 0)
  | Json.str s => !(s = "")
  | Json.arr _ => true
  | Json.obj _ => true

/-- JS truthiness of a possibly-undefined value (`!!x`). -/
def truthyO : Option Json → Bool
  | none => false
  | some v => truthy v

/-- JS `x || d` on a possibly-undefined `x`. -/
def jsOr (v : Option Json) (d : Json) : Json :=
  match v with
  | some x => if truthy x then x else d
  | none => d

/-- JS strict equality `v === t` against a string literal, where `v` may be
`undefined`. -/
def jsStrEq (v : Option Json) (t : String) : Bool :=
  match v with
  | some (Json.str u) => u = t
  | _ => false

/-- JS strict equality `j === t` of a JSON value against a string literal. -/
def jsIsStr (j : Json) (t : String) : Bool :=
  match j with
  | Json.str u => u = t
  | _ => false

/-- The connection indicator states accepted by `setConnDot`. -/
inductive Dot where
  | pending : Dot
  | ok : Dot
  | fail : Dot
deriving DecidableEq, Repr

/-- A socket or timer handle together with the `env` string captured by the
closures attached to it. -/
structure Handle where
  id : Nat
  env : String
deriving DecidableEq, Repr

/-- One call to the log sink `appendWsLog`, recorded structurally. -/
inductive LogEvent where
  | nonJson (raw : String)
  | hello (m : Json)
  | statusLine (connected : Bool) (env : Json) (phase : Option Json)
  | wsErrorMsg (err : Json)
  | binanceEvent (eventType : Json)
  | otherMessage (msg : Json)
  | connecting (env : String)
  | wsConnected
  | wsClosed (code : Nat) (reason : String) (delayMs : ℚ)
  | wsSocketError
  | streamStarted (env : String)
  | streamStartError (err : Json)
  | streamStartFailed

/-- The whole mutable state: the module-level variables of
`binance_user_stream.js` plus the browser runtime's sockets and timers. -/
structure Sys where
  /-- `_userStreamWS` (socket id, `null` as `none`). -/
  userStreamWS : Option Nat
  /-- `_userStreamReconnectTimer`. -/
  userStreamReconnectTimer : Option Nat
  /-- `_reconnectDelayMs`. -/
  reconnectDelayMs : ℚ
  /-- `_streamStartedOnce`. -/
  streamStartedOnce : Bool
  /-- `_keepaliveTimer`. -/
  keepaliveTimer : Option Nat
  /-- Last value passed to `setConnDot`. -/
  connDot : Dot
  /-- Fresh-handle counter. -/
  nextId : Nat
  /-- Runtime: sockets constructed and not yet closed. -/
  openSockets : List Handle
  /-- Runtime: sockets closed by `close()` whose `close` event has not yet
  been delivered to their handlers. -/
  closedPending : List Handle
  /-- Runtime: reconnect timeouts scheduled by `setTimeout` and neither
  fired nor cleared. -/
  pendingReconnects : List Handle
  /-- Runtime: delays (ms) of scheduled, not-yet-run balance-refresh
  timeouts from the `binance_event` branch. -/
  pendingRefreshes : List Nat
  /-- Ghost instrumentation: number of invocations of
  `ensureBinanceUserStreamStarted`. -/
  starterCalls : Nat
  /-- Whether the `DOMContentLoaded` auto-start handler has run. -/
  domInited : Bool
  /-- Log sink, most recent first. -/
  log : List LogEvent

/-- Page-load state: all handle variables `null`, delay at its floor,
`_streamStartedOnce = false`. -/
def initState : Sys :=
  { userStreamWS := none
    userStreamReconnectTimer := none
    reconnectDelayMs := 1500
    streamStartedOnce := false
    keepaliveTimer := none
    connDot := Dot.pending
    nextId := 0
    openSockets := []
    closedPending := []
    pendingReconnects := []
    pendingRefreshes := []
    starterCalls := 0
    domInited := false
    log := [] }

/-- `setConnDot(state)` (guarded by `typeof setConnDot === "function"`,
always present on the dashboard page). -/
def setConnDot (d : Dot) (s : Sys) : Sys := { s with connDot := d }

/-- `appendWsLog(line)`: prepends the line (most-recent-first sink). -/
def appendLog (e : LogEvent) (s : Sys) : Sys := { s with log := e :: s.log }

/-- `stopKeepalive()`: `clearInterval` + null the handle; idempotent. -/
def stopKeepalive (s : Sys) : Sys := { s with keepaliveTimer := none }

/-- `startKeepalive(env)`: `stopKeepalive()` then `setInterval(..., 25min)`;
the periodic tick only logs and never changes manager state, so ticks are
not part of the event model. -/
def startKeepalive (_env : String) (s : Sys) : Sys :=
  let s := stopKeepalive s
  { s with keepaliveTimer := some s.nextId, nextId := s.nextId + 1 }

/-- The boolean result of `ensureBinanceUserStreamStarted` as a function of
the fetch outcome: `true` iff the body parsed and `data.ok` was truthy.
A body of JSON `null` makes `data.ok` throw a `TypeError` inside the `try`,
which is caught like a fetch failure. -/
def ensureOk (resp : Option Json) : Bool :=
  match resp with
  | none => false
  | some Json.null => false
  | some data => truthyO (jsProp data "ok")

/-- `ensureBinanceUserStreamStarted(env)`: POST `start?env=...`, returns
`true` on a truthy `data.ok`, logging one line on every path; any throw
(fetch failure, body-parse failure, or `data.ok` on a `null` body) is
caught and returns `false`.  Also bumps the ghost invocation counter. -/
def ensureBinanceUserStreamStarted (env : String) (resp : Option Json) (s : Sys) :
    Bool × Sys :=
  let s := { s with starterCalls := s.starterCalls + 1 }
  match resp with
  | none => (false, appendLog LogEvent.streamStartFailed s)
  | some Json.null => (false, appendLog LogEvent.streamStartFailed s)
  | some data =>
      if truthyO (jsProp data "ok") then
        (true, appendLog (LogEvent.streamStarted env) s)
      else
        (false, appendLog
          (LogEvent.streamStartError (jsOr (jsProp data "error") (Json.str "unknown"))) s)

/-- `closeUserStreamWS()`: clears any pending reconnect timeout, then
force-closes and nulls any socket.  `close()` on a still-open socket moves
it to `closedPending` (its `close` event will be delivered later);
`close()` on an already-closed socket is a no-op (the `try`/`catch` around
it swallows any throw). -/
def closeUserStreamWS (s : Sys) : Sys :=
  let s :=
    match s.userStreamReconnectTimer with
    | some t =>
        { s with userStreamReconnectTimer := none
                 pendingReconnects := s.pendingReconnects.filter (fun p => !(p.id = t)) }
    | none => s
  match s.userStreamWS with
  | some w =>
      match s.openSockets.find? (fun p => p.id = w) with
      | some p =>
          { s with userStreamWS := none
                   openSockets := s.openSockets.filter (fun q => !(q.id = w))
                   closedPending := p :: s.closedPending }
      | none => { s with userStreamWS := none }
  | none => s

/-- `connectUserStreamWS(env)`: `closeUserStreamWS()` first, indicator to
`pending`, log, then `new WebSocket(url(env))` stored in `_userStreamWS`. -/
def connectUserStreamWS (env : String) (s : Sys) : Sys :=
  let s := closeUserStreamWS s
  let s := setConnDot Dot.pending s
  let s := appendLog (LogEvent.connecting env) s
  { s with userStreamWS := some s.nextId
           openSockets := ⟨s.nextId, env⟩ :: s.openSockets
           nextId := s.nextId + 1 }

/-- Body of `_userStreamWS.onopen`. -/
def onOpenBody (s : Sys) : Sys :=
  let s := appendLog LogEvent.wsConnected s
  { s with reconnectDelayMs := 1500 }

/-- Body of `_userStreamWS.onerror`. -/
def onErrorBody (s : Sys) : Sys :=
  setConnDot Dot.fail (appendLog LogEvent.wsSocketError s)

/-- Body of `_userStreamWS.onclose`: log (with the pre-growth delay), set
the indicator to `fail`, schedule `startBinanceUserStreamLive(env)` after
`_reconnectDelayMs` ms (overwriting the timer variable without clearing a
previous timeout), then grow the delay to `min(delay * 1.6, 20000)`. -/
def onCloseBody (env : String) (code : Nat) (reason : String) (s : Sys) : Sys :=
  let s := appendLog (LogEvent.wsClosed code reason s.reconnectDelayMs) s
  let s := setConnDot Dot.fail s
  let s := { s with userStreamReconnectTimer := some s.nextId
                    pendingReconnects := (⟨s.nextId, env⟩ : Handle) :: s.pendingReconnects
                    nextId := s.nextId + 1 }
  { s with reconnectDelayMs := min (s.reconnectDelayMs * (8 / 5 : ℚ)) 20000 }

/-- What `onmessage` receives: the raw frame either fails `JSON.parse`
(with the given raw text) or parses to a JSON value. -/
inductive WsData where
  | nonJson (raw : String)
  | json (v : Json)

/-- Body of `_userStreamWS.onmessage`.  `Except.error ()` is an uncaught
`TypeError`: only `JSON.parse` is inside a `try`, and a parsed value of
JSON `null` makes the very first use `msg.type` throw before any state
change.  Every non-null parsed value runs to completion: after a string
`type` tag matches, `msg` is known to be an object, and in the
`binance_event` branch `msg.data || {}` is never `null`. -/
def onMessageBody (env : String) (d : WsData) (s : Sys) : Except Unit Sys :=
  match d with
  | WsData.nonJson raw => Except.ok (appendLog (LogEvent.nonJson (raw.take 200)) s)
  | WsData.json Json.null => Except.error ()
  | WsData.json msg =>
      Except.ok <|
        if jsStrEq (jsProp msg "type") "hello" then
          appendLog (LogEvent.hello (jsOr (jsProp msg "msg") (Json.str "ok"))) s
        else if jsStrEq (jsProp msg "type") "status" then
          let connected := truthyO (jsProp msg "connected")
          let s := appendLog
            (LogEvent.statusLine connected (jsOr (jsProp msg "env") (Json.str env))
              (jsProp msg "phase")) s
          setConnDot (if connected then Dot.ok else Dot.fail) s
        else if jsStrEq (jsProp msg "type") "error" then
          setConnDot Dot.fail
            (appendLog (LogEvent.wsErrorMsg (jsOr (jsProp msg "error") (Json.str "unknown"))) s)
        else if jsStrEq (jsProp msg "type") "binance_event" then
          let data := jsOr (jsProp msg "data") (Json.obj [])
          let eventType :=
            jsOr (jsProp data "e") (jsOr (jsProp data "eventType") (Json.str "unknown_event"))
          let s := appendLog (LogEvent.binanceEvent eventType) s
          let s := setConnDot Dot.ok s
          if jsIsStr eventType "outboundAccountPosition" || jsIsStr eventType "balanceUpdate" then
            { s with pendingRefreshes := 400 :: s.pendingRefreshes }
          else s
        else
          appendLog (LogEvent.otherMessage msg) s

/-- `onmessage` as the runtime runs it: an uncaught handler exception
aborts the handler; since the only throw point precedes every state
change, the state is left unchanged. -/
def onMessage (env : String) (d : WsData) (s : Sys) : Sys :=
  match onMessageBody env d s with
  | Except.ok s' => s'
  | Except.error _ => s

/-- `startBinanceUserStreamLive(env)` with the start-endpoint outcome
supplied by the oracle `resp`. -/
def startBinanceUserStreamLive (env : String) (resp : Option Json) (s : Sys) : Sys :=
  let s := setConnDot Dot.pending s
  if s.streamStartedOnce then
    connectUserStreamWS env s
  else
    let r := ensureBinanceUserStreamStarted env resp s
    if r.1 then
      let s := { r.2 with streamStartedOnce := true }
      let s := startKeepalive env s
      connectUserStreamWS env s
    else
      closeUserStreamWS (stopKeepalive (setConnDot Dot.fail r.2))

/-- `stopBinanceUserStream()`. -/
def stopBinanceUserStream (s : Sys) : Sys :=
  let s := stopKeepalive s
  let s := closeUserStreamWS s
  { s with streamStartedOnce := false, reconnectDelayMs := 1500 }

/-- Fold of `onmessage` over a sequence of frames. -/
def processMessages (env : String) (ds : List WsData) (s : Sys) : Sys :=
  ds.foldl (fun s d => onMessage env d s) s

/-!
The event machine.  The repository's runtime drives the manager through
exactly these entry points: the one-shot `DOMContentLoaded` auto-start
(which calls `startBinanceUserStreamLive("testnet")` when the active
exchange is `binance:testnet`), socket event delivery for sockets the page
created, firing of a scheduled reconnect timeout (whose callback is
`startBinanceUserStreamLive(env)` with the captured `env`), and the public
`stopBinanceUserStream()`.  Handlers stay attached to their socket: a
`close` event of a force-closed socket still runs `onCloseBody`.
-/

/-- An external event, with network responses supplied as oracles. -/
inductive Ev where
  | domLoad (activeResp : Option Json) (startResp : Option Json) : Ev
  | fireTimer (t : Nat) (startResp : Option Json) : Ev
  | deliverOpen (i : Nat) : Ev
  | deliverMsg (i : Nat) (d : WsData) : Ev
  | deliverErr (i : Nat) : Ev
  | deliverClose (i : Nat) (code : Nat) (reason : String) : Ev
  | callStop : Ev

/-- One step of the runtime; `none` when the event is not enabled in `s`
(handler already run, socket unknown, timer not pending). -/
def stepEv (e : Ev) (s : Sys) : Option Sys :=
  match e with
  | Ev.domLoad activeResp startResp =>
      if s.domInited then none
      else
        let s := { s with domInited := true }
        some <|
          match activeResp with
          | none => s
          | some Json.null => s
          | some data =>
              if jsStrEq (jsProp data "active") "binance:testnet" then
                startBinanceUserStreamLive "testnet" startResp s
              else s
  | Ev.fireTimer t startResp =>
      match s.pendingReconnects.find? (fun p => p.id = t) with
      | some p =>
          let s := { s with pendingReconnects := s.pendingReconnects.filter (fun q => !(q.id = t)) }
          some (startBinanceUserStreamLive p.env startResp s)
      | none => none
  | Ev.deliverOpen i =>
      if s.openSockets.any (fun p => p.id = i) then some (onOpenBody s) else none
  | Ev.deliverMsg i d =>
      match s.openSockets.find? (fun p => p.id = i) with
      | some p => some (onMessage p.env d s)
      | none => none
  | Ev.deliverErr i =>
      if s.openSockets.any (fun p => p.id = i) then some (onErrorBody s) else none
  | Ev.deliverClose i code reason =>
      match s.openSockets.find? (fun p => p.id = i) with
      | some p =>
          some (onCloseBody p.env code reason
            { s with openSockets := s.openSockets.filter (fun q => !(q.id = i)) })
      | none =>
          match s.closedPending.find? (fun p => p.id = i) with
          | some p =>
              some (onCloseBody p.env code reason
                { s with closedPending := s.closedPending.filter (fun q => !(q.id = i)) })
          | none => none
  | Ev.callStop => some (stopBinanceUserStream s)

/-- Reachable runtime states, starting at page load. -/
inductive Reach : Sys → Prop where
  | init : Reach initState
  | step {s s' : Sys} (e : Ev) : Reach s → stepEv e s = some s' → Reach s'

/-- The inductive invariant of the reachable states: (a) at most one
reconnect timeout is pending or about to be scheduled by an undelivered
close event; (c) every open socket is the one `_userStreamWS` refers to;
(d) while a socket is open there is no pending reconnect timeout and no
undelivered close; (f) every pending reconnect timeout is the one
`_userStreamReconnectTimer` refers to; (g) the keepalive interval only
runs after the stream starter has succeeded; (h) the backoff delay stays
within `[1500, 20000]`; (k) before the auto-start handler runs, no socket
or reconnect timeout exists. -/
def SysInv (s : Sys) : Prop :=
  (s.pendingReconnects.length + s.closedPending.length ≤ 1) ∧
  (∀ p ∈ s.openSockets, s.userStreamWS = some p.id) ∧
  (s.openSockets ≠ [] → s.pendingReconnects = [] ∧ s.closedPending = []) ∧
  (∀ p ∈ s.pendingReconnects, s.userStreamReconnectTimer = some p.id) ∧
  (s.keepaliveTimer.isSome → s.streamStartedOnce = true) ∧
  (1500 ≤ s.reconnectDelayMs ∧ s.reconnectDelayMs ≤ 20000) ∧
  (s.domInited = false →
    s.openSockets = [] ∧ s.pendingReconnects = [] ∧ s.closedPending = [] ∧
      s.userStreamWS = none)

/-- Spec-side characterization (from the spec's words, for comparison with
the handler): a frame qualifies for a balance refresh when it is a
`binance_event` envelope whose inner event type — extracted the way the
dispatcher extracts it — is `outboundAccountPosition` or `balanceUpdate`. -/
def specQualifyingEnvelope (d : WsData) : Bool :=
  match d with
  | WsData.nonJson _ => false
  | WsData.json msg =>
      jsStrEq (jsProp msg "type") "binance_event" &&
        (jsIsStr
            (jsOr (jsProp (jsOr (jsProp msg "data") (Json.obj [])) "e")
              (jsOr (jsProp (jsOr (jsProp msg "data") (Json.obj [])) "eventType")
                (Json.str "unknown_event"))) "outboundAccountPosition"
          || jsIsStr
            (jsOr (jsProp (jsOr (jsProp msg "data") (Json.obj [])) "e")
              (jsOr (jsProp (jsOr (jsProp msg "data") (Json.obj [])) "eventType")
                (Json.str "unknown_event"))) "balanceUpdate")

/-- Which log lines report a stream-start failure. -/
def isStartFailureLog (e : LogEvent) : Bool :=
  match e with
  | LogEvent.streamStartFailed => true
  | LogEvent.streamStartError _ => true
  | _ => false

/-- The backend's declared `{ok: bool}` response shape: when the `ok` field
is present it is a boolean. -/
def respOkWellTyped (resp : Option Json) : Prop :=
  ∀ data, resp = some data → ∀ v, jsProp data "ok" = some v → ∃ b, v = Json.bool b

/-- The indicator after a handler run that may have thrown. -/
def dotAfter (r : Except Unit Sys) : Option Dot :=
  match r with
  | Except.ok s => some s.connDot
  | Except.error _ => none

/-- A successful start-endpoint body. -/
def okResp : Json := Json.obj [("ok", Json.bool true)]

/-- A rejected start-endpoint body. -/
def failResp : Json :=
  Json.obj [("ok", Json.bool false), ("error", Json.str "unauthorized")]

/-- An active-exchange body selecting the Binance testnet. -/
def activeResp : Json := Json.obj [("active", Json.str "binance:testnet")]

/-- A `status` envelope whose `connected` field is the number 1. -/
def statusNum1 : Json :=
  Json.obj [("type", Json.str "status"), ("connected", Json.num 1)]

/-- A qualifying `binance_event` envelope. -/
def balanceUpdateMsg : Json :=
  Json.obj [("type", Json.str "binance_event"),
    ("data", Json.obj [("e", Json.str "balanceUpdate")])]

/-- The live state right after the auto-start succeeded: keepalive armed,
socket 1 open. -/
def sLive : Sys :=
  startBinanceUserStreamLive "testnet" (some okResp) { initState with domInited := true }

/-- `sLive` after its socket delivered a close event. -/
def sClosed : Sys := (stepEv (Ev.deliverClose 1 1006 "") sLive).getD initState

/-- A `status` envelope reporting a live upstream connection. -/
def statusTrueMsg : Json :=
  Json.obj [("type", Json.str "status"), ("connected", Json.bool true)]

/-- An `error` envelope. -/
def errorMsg : Json := Json.obj [("type", Json.str "error")]

/-- A `binance_event` envelope with no `data` field. -/
def bareBinanceMsg : Json := Json.obj [("type", Json.str "binance_event")]

/-- `sLive` after its socket delivered a transport error event. -/
def sErr : Sys := (stepEv (Ev.deliverErr 1) sLive).getD initState

/-- `sErr` after the subsequent close event. -/
def sErrClosed : Sys := (stepEv (Ev.deliverClose 1 1006 "") sErr).getD initState

/-- One backoff step keeps the delay within `[1500, 20000]` and never
decreases it. -/
theorem backoffStep_bounds {d : ℚ} (h1 : 1500 ≤ d) (h2 : d ≤ 20000) :
    1500 ≤ min (d * (8 / 5 : ℚ)) 20000 ∧
      min (d * (8 / 5 : ℚ)) 20000 ≤ 20000 ∧
      d ≤ min (d * (8 / 5 : ℚ)) 20000 := by
  refine ⟨le_min (by nlinarith) (by norm_num), min_le_right _ _, le_min (by nlinarith) h2⟩

theorem close_userStreamReconnectTimer (s : Sys) :
    (closeUserStreamWS s).userStreamReconnectTimer = none := by
  unfold closeUserStreamWS
  cases ht : s.userStreamReconnectTimer <;>
    simp only [ht] <;>
    cases hw : s.userStreamWS <;>
    simp only [hw] <;>
    first
      | (split <;> simp_all)
      | simp_all
      | rfl

theorem close_userStreamWS (s : Sys) : (closeUserStreamWS s).userStreamWS = none := by
  unfold closeUserStreamWS
  cases ht : s.userStreamReconnectTimer <;>
    simp only [ht] <;>
    cases hw : s.userStreamWS <;>
    simp only [hw] <;>
    first
      | (split <;> simp_all)
      | simp_all
      | rfl

/-- `closeUserStreamWS` only touches the three handle fields. -/
theorem close_unchanged (s : Sys) :
    (closeUserStreamWS s).reconnectDelayMs = s.reconnectDelayMs ∧
    (closeUserStreamWS s).streamStartedOnce = s.streamStartedOnce ∧
    (closeUserStreamWS s).keepaliveTimer = s.keepaliveTimer ∧
    (closeUserStreamWS s).connDot = s.connDot ∧
    (closeUserStreamWS s).nextId = s.nextId ∧
    (closeUserStreamWS s).pendingRefreshes = s.pendingRefreshes ∧
    (closeUserStreamWS s).starterCalls = s.starterCalls ∧
    (closeUserStreamWS s).domInited = s.domInited ∧
    (closeUserStreamWS s).log = s.log := by
  unfold closeUserStreamWS
  cases ht : s.userStreamReconnectTimer <;>
    simp only [ht] <;>
    cases hw : s.userStreamWS <;>
    simp only [hw] <;>
    first
      | (split <;> simp_all)
      | simp_all
      | simp

/-- After `closeUserStreamWS`, no socket with the id of the previously held
socket is still open: the old socket really was force-closed. -/
theorem close_closes_old {s : Sys} {w : Nat} (hw : s.userStreamWS = some w) :
    ∀ p ∈ (closeUserStreamWS s).openSockets, p.id ≠ w := by
  unfold closeUserStreamWS
  cases ht : s.userStreamReconnectTimer <;> simp only [ht] <;> simp only [hw] <;>
    split
  all_goals
    intro p hp hne
  · rename_i q hfind
    simp only [List.mem_filter] at hp
    simp [hne] at hp
  · rename_i hfind
    rw [List.find?_eq_none] at hfind
    have h3 := hfind p (by simpa using hp)
    simp only [decide_eq_true_eq] at h3
    exact h3 hne
  · rename_i q hfind
    simp only [List.mem_filter] at hp
    simp [hne] at hp
  · rename_i hfind
    rw [List.find?_eq_none] at hfind
    have h3 := hfind p (by simpa using hp)
    simp only [decide_eq_true_eq] at h3
    exact h3 hne

/-- After `closeUserStreamWS`, no reconnect timeout with the id of the
previously pending one is still scheduled: the old timeout really was
cancelled. -/
theorem close_cancels_old {s : Sys} {t : Nat}
    (ht : s.userStreamReconnectTimer = some t) :
    ∀ p ∈ (closeUserStreamWS s).pendingReconnects, p.id ≠ t := by
  unfold closeUserStreamWS
  simp only [ht]
  cases hw : s.userStreamWS <;> simp only [hw]
  · intro p hp
    simp only [List.mem_filter] at hp
    simpa using hp.2
  · split <;>
      (intro p hp
       simp only [List.mem_filter] at hp
       simpa using hp.2)

/-- Under the invariant, `closeUserStreamWS` empties the runtime: no
pending reconnect timeout, no open socket, at most one undelivered close
event (none if the auto-start has not yet run). -/
theorem close_runtime {s : Sys} (h : SysInv s) :
    (closeUserStreamWS s).pendingReconnects = [] ∧
    (closeUserStreamWS s).openSockets = [] ∧
    (closeUserStreamWS s).pendingReconnects.length +
      (closeUserStreamWS s).closedPending.length ≤ 1 ∧
    (s.domInited = false → (closeUserStreamWS s).closedPending = []) := by
  obtain ⟨ha, hc, hd, hf, hg, hh, hk⟩ := h
  have hp0 : s.userStreamReconnectTimer = none → s.pendingReconnects = [] := by
    intro ht
    refine List.eq_nil_iff_forall_not_mem.mpr fun q hq => ?_
    have h2 := hf q hq
    rw [ht] at h2
    exact Option.noConfusion h2
  have hp1 : ∀ t, s.userStreamReconnectTimer = some t →
      s.pendingReconnects.filter (fun p => !(p.id = t)) = [] := by
    intro t ht
    rw [List.filter_eq_nil]
    intro q hq
    have h2 := hf q hq
    rw [ht] at h2
    simp only [Option.some.injEq] at h2
    simp [h2]
  have ho1 : ∀ w, s.userStreamWS = some w →
      s.openSockets.filter (fun q => !(q.id = w)) = [] := by
    intro w hw
    rw [List.filter_eq_nil]
    intro q hq
    have h2 := hc q hq
    rw [hw] at h2
    simp only [Option.some.injEq] at h2
    simp [h2]
  have ho0 : s.userStreamWS = none → s.openSockets = [] := by
    intro hw
    refine List.eq_nil_iff_forall_not_mem.mpr fun q hq => ?_
    have h2 := hc q hq
    rw [hw] at h2
    exact Option.noConfusion h2
  have ho2 : ∀ w, s.userStreamWS = some w →
      s.openSockets.find? (fun q => q.id = w) = none → s.openSockets = [] := by
    intro w hw hfind
    rw [List.find?_eq_none] at hfind
    refine List.eq_nil_iff_forall_not_mem.mpr fun q hq => ?_
    have h2 := hc q hq
    rw [hw] at h2
    simp only [Option.some.injEq] at h2
    have h3 := hfind q hq
    simp only [decide_eq_true_eq] at h3
    exact h3 h2.symm
  have hcp1 : ∀ (w : Nat) (p : Handle),
      s.openSockets.find? (fun q => q.id = w) = some p → s.closedPending = [] := by
    intro w p hfind
    exact (hd (List.ne_nil_of_mem (List.mem_of_find?_eq_some hfind))).2
  have hcp2 : ∀ (w : Nat) (p : Handle),
      s.openSockets.find? (fun q => q.id = w) = some p →
        s.domInited = false → False := by
    intro w p hfind hdm
    have hmem := List.mem_of_find?_eq_some hfind
    rw [(hk hdm).1] at hmem
    simp at hmem
  unfold closeUserStreamWS
  cases ht : s.userStreamReconnectTimer <;> simp only [ht] <;>
    cases hw : s.userStreamWS <;> simp only [hw]
  · exact ⟨hp0 ht, ho0 hw, ha, fun hdm => (hk hdm).2.2.1⟩
  · split
    · rename_i p hfind
      refine ⟨?_, ?_, ?_, ?_⟩
      · simpa using hp0 ht
      · simpa using ho1 _ hw
      · simp [hp0 ht, hcp1 _ _ hfind]
      · intro hdm
        exact (hcp2 _ _ hfind hdm).elim
    · rename_i hfind
      refine ⟨?_, ?_, ?_, ?_⟩
      · simpa using hp0 ht
      · simpa using ho2 _ hw hfind
      · simpa using ha
      · intro hdm
        simpa using (hk hdm).2.2.1
  · refine ⟨?_, ?_, ?_, ?_⟩
    · simpa using hp1 _ ht
    · simpa using ho0 hw
    · simp [hp1 _ ht]
      omega
    · intro hdm
      simpa using (hk hdm).2.2.1
  · split
    · rename_i p hfind
      refine ⟨?_, ?_, ?_, ?_⟩
      · simpa using hp1 _ ht
      · simpa using ho1 _ hw
      · simp [hp1 _ ht, hcp1 _ _ hfind]
      · intro hdm
        exact (hcp2 _ _ hfind hdm).elim
    · rename_i hfind
      refine ⟨?_, ?_, ?_, ?_⟩
      · simpa using hp1 _ ht
      · simpa using ho2 _ hw hfind
      · simp [hp1 _ ht]
        omega
      · intro hdm
        simpa using (hk hdm).2.2.1

/-- `SysInv` only depends on nine fields. -/
theorem SysInv_transfer {s s' : Sys}
    (h1 : s'.pendingReconnects = s.pendingReconnects)
    (h2 : s'.closedPending = s.closedPending)
    (h3 : s'.openSockets = s.openSockets)
    (h4 : s'.userStreamWS = s.userStreamWS)
    (h5 : s'.userStreamReconnectTimer = s.userStreamReconnectTimer)
    (h6 : s'.keepaliveTimer = s.keepaliveTimer)
    (h7 : s'.streamStartedOnce = s.streamStartedOnce)
    (h8 : s'.reconnectDelayMs = s.reconnectDelayMs)
    (h9 : s'.domInited = s.domInited)
    (h : SysInv s) : SysInv s' := by
  unfold SysInv
  rw [h1, h2, h3, h4, h5, h6, h7, h8, h9]
  exact h

theorem inv_close {s : Sys} (h : SysInv s) : SysInv (closeUserStreamWS s) := by
  obtain ⟨hp, ho, hsum, hcpd⟩ := close_runtime h
  obtain ⟨ha, hc, hd, hf, hg, hh, hk⟩ := h
  obtain ⟨u1, u2, u3, u4, u5, u6, u7, u8, u9⟩ := close_unchanged s
  refine ⟨hsum, ?_, ?_, ?_, ?_, ?_, ?_⟩
  · intro p hmem
    rw [ho] at hmem
    simp at hmem
  · intro hne
    exact absurd ho hne
  · intro p hmem
    rw [hp] at hmem
    simp at hmem
  · rw [u3, u2]
    exact hg
  · rw [u1]
    exact hh
  · intro hdm
    rw [u8] at hdm
    exact ⟨ho, hp, hcpd hdm, close_userStreamWS s⟩

theorem inv_stopKeepalive {s : Sys} (h : SysInv s) : SysInv (stopKeepalive s) := by
  obtain ⟨ha, hc, hd, hf, hg, hh, hk⟩ := h
  exact ⟨ha, hc, hd, hf, by simp [stopKeepalive], hh, hk⟩

theorem inv_set_started {s : Sys} (h : SysInv s) :
    SysInv { s with streamStartedOnce := true } := by
  obtain ⟨ha, hc, hd, hf, hg, hh, hk⟩ := h
  exact ⟨ha, hc, hd, hf, by simp, hh, hk⟩

theorem inv_startKeepalive {s : Sys} (h : SysInv s)
    (hst : s.streamStartedOnce = true) (env : String) :
    SysInv (startKeepalive env s) := by
  obtain ⟨ha, hc, hd, hf, hg, hh, hk⟩ := h
  exact ⟨ha, hc, hd, hf, by simp [startKeepalive, stopKeepalive, hst], hh, hk⟩

/-- `closeUserStreamWS` with no open socket does not create an undelivered
close event. -/
theorem close_closedPending_of_open_nil {s : Sys} (hop : s.openSockets = []) :
    (closeUserStreamWS s).closedPending = s.closedPending := by
  unfold closeUserStreamWS
  cases ht : s.userStreamReconnectTimer <;> simp only [ht] <;>
    cases hw : s.userStreamWS <;> simp [hw, hop]

/-- `connectUserStreamWS` unfolded to a single record update of the closed
state. -/
theorem connect_spec (env : String) (s : Sys) :
    connectUserStreamWS env s =
      { closeUserStreamWS s with
          connDot := Dot.pending
          log := LogEvent.connecting env :: (closeUserStreamWS s).log
          userStreamWS := some (closeUserStreamWS s).nextId
          openSockets :=
            ⟨(closeUserStreamWS s).nextId, env⟩ :: (closeUserStreamWS s).openSockets
          nextId := (closeUserStreamWS s).nextId + 1 } := rfl

theorem inv_connect {s : Sys} (h : SysInv s) (hdm : s.domInited = true)
    (hop : s.openSockets = []) (hcp : s.closedPending = []) (env : String) :
    SysInv (connectUserStreamWS env s) := by
  obtain ⟨hp, ho, hsum, hcpd⟩ := close_runtime h
  obtain ⟨ha, hc, hd, hf, hg, hh, hk⟩ := h
  obtain ⟨u1, u2, u3, u4, u5, u6, u7, u8, u9⟩ := close_unchanged s
  have hcp' : (closeUserStreamWS s).closedPending = [] := by
    rw [close_closedPending_of_open_nil hop]
    exact hcp
  rw [connect_spec]
  refine ⟨?_, ?_, ?_, ?_, ?_, ?_, ?_⟩
  · simp [hp, hcp']
  · intro p hmem
    simp only [ho, List.mem_singleton] at hmem
    simp [hmem]
  · intro _
    simp [hp, hcp']
  · intro p hmem
    simp only [hp] at hmem
    simp at hmem
  · simpa [u3, u2] using hg
  · simpa [u1] using hh
  · intro hdm'
    simp only [u8] at hdm'
    rw [hdm] at hdm'
    exact Bool.noConfusion hdm'

/-- The starter's boolean result only depends on the fetch outcome. -/
theorem ensure_fst (env : String) (resp : Option Json) (s : Sys) :
    (ensureBinanceUserStreamStarted env resp s).1 = ensureOk resp := by
  unfold ensureBinanceUserStreamStarted ensureOk
  cases resp with
  | none => rfl
  | some v =>
      cases v <;>
        first
          | rfl
          | (split <;> subst_vars <;> simp_all <;> (try (split <;> simp_all)))

/-- The starter only appends one log line and bumps the ghost counter. -/
theorem ensure_snd (env : String) (resp : Option Json) (s : Sys) :
    ((ensureBinanceUserStreamStarted env resp s).2).pendingReconnects = s.pendingReconnects ∧
    ((ensureBinanceUserStreamStarted env resp s).2).closedPending = s.closedPending ∧
    ((ensureBinanceUserStreamStarted env resp s).2).openSockets = s.openSockets ∧
    ((ensureBinanceUserStreamStarted env resp s).2).userStreamWS = s.userStreamWS ∧
    ((ensureBinanceUserStreamStarted env resp s).2).userStreamReconnectTimer =
      s.userStreamReconnectTimer ∧
    ((ensureBinanceUserStreamStarted env resp s).2).keepaliveTimer = s.keepaliveTimer ∧
    ((ensureBinanceUserStreamStarted env resp s).2).streamStartedOnce = s.streamStartedOnce ∧
    ((ensureBinanceUserStreamStarted env resp s).2).reconnectDelayMs = s.reconnectDelayMs ∧
    ((ensureBinanceUserStreamStarted env resp s).2).domInited = s.domInited ∧
    ((ensureBinanceUserStreamStarted env resp s).2).connDot = s.connDot ∧
    ((ensureBinanceUserStreamStarted env resp s).2).nextId = s.nextId ∧
    ((ensureBinanceUserStreamStarted env resp s).2).pendingRefreshes = s.pendingRefreshes ∧
    ((ensureBinanceUserStreamStarted env resp s).2).starterCalls = s.starterCalls + 1 := by
  unfold ensureBinanceUserStreamStarted
  cases resp with
  | none => simp [appendLog]
  | some v => cases v <;> simp [appendLog] <;> split <;> simp

/-- `startBinanceUserStreamLive` when the session is already started:
skip the starter, go straight to the connect. -/
theorem startLive_started (env : String) (resp : Option Json) {s : Sys}
    (h : s.streamStartedOnce = true) :
    startBinanceUserStreamLive env resp s =
      connectUserStreamWS env (setConnDot Dot.pending s) := by
  unfold startBinanceUserStreamLive
  simp [setConnDot, h]

/-- `startBinanceUserStreamLive` when the starter fails: indicator `fail`,
keepalive stopped, socket closed, nothing opened. -/
theorem startLive_fail (env : String) (resp : Option Json) {s : Sys}
    (h : s.streamStartedOnce = false) (hok : ensureOk resp = false) :
    startBinanceUserStreamLive env resp s =
      closeUserStreamWS (stopKeepalive (setConnDot Dot.fail
        (ensureBinanceUserStreamStarted env resp (setConnDot Dot.pending s)).2)) := by
  simp only [startBinanceUserStreamLive, setConnDot, h, Bool.false_eq_true, if_false,
    ensure_fst, hok]

/-- `startBinanceUserStreamLive` when the starter succeeds: set
`_streamStartedOnce`, arm the keepalive, connect. -/
theorem startLive_success (env : String) (resp : Option Json) {s : Sys}
    (h : s.streamStartedOnce = false) (hok : ensureOk resp = true) :
    startBinanceUserStreamLive env resp s =
      connectUserStreamWS env (startKeepalive env
        { (ensureBinanceUserStreamStarted env resp (setConnDot Dot.pending s)).2 with
            streamStartedOnce := true }) := by
  simp only [startBinanceUserStreamLive, setConnDot, h, Bool.false_eq_true, if_false,
    ensure_fst, hok, if_true]

theorem inv_startLive {s : Sys} (h : SysInv s) (hdm : s.domInited = true)
    (hop : s.openSockets = []) (hcp : s.closedPending = [])
    (env : String) (resp : Option Json) :
    SysInv (startBinanceUserStreamLive env resp s) := by
  have h0 : SysInv (setConnDot Dot.pending s) :=
    SysInv_transfer rfl rfl rfl rfl rfl rfl rfl rfl rfl h
  cases hst : s.streamStartedOnce with
  | true =>
      rw [startLive_started env resp hst]
      exact inv_connect h0 hdm hop hcp env
  | false =>
      obtain ⟨e1, e2, e3, e4, e5, e6, e7, e8, e9, e10, e11, e12, e13⟩ :=
        ensure_snd env resp (setConnDot Dot.pending s)
      have h1 : SysInv (ensureBinanceUserStreamStarted env resp (setConnDot Dot.pending s)).2 :=
        SysInv_transfer e1 e2 e3 e4 e5 e6 e7 e8 e9 h0
      cases hok : ensureOk resp with
      | false =>
          rw [startLive_fail env resp hst hok]
          exact inv_close (inv_stopKeepalive
            (SysInv_transfer rfl rfl rfl rfl rfl rfl rfl rfl rfl h1))
      | true =>
          rw [startLive_success env resp hst hok]
          have h2 : SysInv
              { (ensureBinanceUserStreamStarted env resp (setConnDot Dot.pending s)).2 with
                  streamStartedOnce := true } := inv_set_started h1
          have h3 := inv_startKeepalive h2 (by simp) env
          refine inv_connect h3 ?_ ?_ ?_ env
          · simpa [startKeepalive, stopKeepalive, e9] using hdm
          · simpa [startKeepalive, stopKeepalive, e3] using hop
          · simpa [startKeepalive, stopKeepalive, e2] using hcp

/-- The message handler only ever touches the log, the indicator, and the
scheduled balance refreshes. -/
theorem onMessage_fields (env : String) (d : WsData) (s : Sys) :
    (onMessage env d s).pendingReconnects = s.pendingReconnects ∧
    (onMessage env d s).closedPending = s.closedPending ∧
    (onMessage env d s).openSockets = s.openSockets ∧
    (onMessage env d s).userStreamWS = s.userStreamWS ∧
    (onMessage env d s).userStreamReconnectTimer = s.userStreamReconnectTimer ∧
    (onMessage env d s).keepaliveTimer = s.keepaliveTimer ∧
    (onMessage env d s).streamStartedOnce = s.streamStartedOnce ∧
    (onMessage env d s).reconnectDelayMs = s.reconnectDelayMs ∧
    (onMessage env d s).domInited = s.domInited ∧
    (onMessage env d s).nextId = s.nextId ∧
    (onMessage env d s).starterCalls = s.starterCalls := by
  unfold onMessage onMessageBody
  cases d with
  | nonJson raw => simp [appendLog]
  | json v =>
      cases v <;>
        simp only [appendLog, setConnDot] <;>
        (repeat' split) <;>
        simp [appendLog, setConnDot]

theorem onOpenBody_fields (s : Sys) :
    (onOpenBody s).pendingReconnects = s.pendingReconnects ∧
    (onOpenBody s).closedPending = s.closedPending ∧
    (onOpenBody s).openSockets = s.openSockets ∧
    (onOpenBody s).userStreamWS = s.userStreamWS ∧
    (onOpenBody s).userStreamReconnectTimer = s.userStreamReconnectTimer ∧
    (onOpenBody s).keepaliveTimer = s.keepaliveTimer ∧
    (onOpenBody s).streamStartedOnce = s.streamStartedOnce ∧
    (onOpenBody s).reconnectDelayMs = 1500 ∧
    (onOpenBody s).domInited = s.domInited ∧
    (onOpenBody s).nextId = s.nextId ∧
    (onOpenBody s).starterCalls = s.starterCalls :=
  ⟨rfl, rfl, rfl, rfl, rfl, rfl, rfl, rfl, rfl, rfl, rfl⟩

theorem onErrorBody_fields (s : Sys) :
    (onErrorBody s).pendingReconnects = s.pendingReconnects ∧
    (onErrorBody s).closedPending = s.closedPending ∧
    (onErrorBody s).openSockets = s.openSockets ∧
    (onErrorBody s).userStreamWS = s.userStreamWS ∧
    (onErrorBody s).userStreamReconnectTimer = s.userStreamReconnectTimer ∧
    (onErrorBody s).keepaliveTimer = s.keepaliveTimer ∧
    (onErrorBody s).streamStartedOnce = s.streamStartedOnce ∧
    (onErrorBody s).reconnectDelayMs = s.reconnectDelayMs ∧
    (onErrorBody s).domInited = s.domInited ∧
    (onErrorBody s).nextId = s.nextId ∧
    (onErrorBody s).starterCalls = s.starterCalls ∧
    (onErrorBody s).connDot = Dot.fail :=
  ⟨rfl, rfl, rfl, rfl, rfl, rfl, rfl, rfl, rfl, rfl, rfl, rfl⟩

theorem onCloseBody_fields (env : String) (code : Nat) (reason : String) (s : Sys) :
    (onCloseBody env code reason s).pendingReconnects =
      (⟨s.nextId, env⟩ : Handle) :: s.pendingReconnects ∧
    (onCloseBody env code reason s).closedPending = s.closedPending ∧
    (onCloseBody env code reason s).openSockets = s.openSockets ∧
    (onCloseBody env code reason s).userStreamWS = s.userStreamWS ∧
    (onCloseBody env code reason s).userStreamReconnectTimer = some s.nextId ∧
    (onCloseBody env code reason s).keepaliveTimer = s.keepaliveTimer ∧
    (onCloseBody env code reason s).streamStartedOnce = s.streamStartedOnce ∧
    (onCloseBody env code reason s).reconnectDelayMs =
      min (s.reconnectDelayMs * (8 / 5 : ℚ)) 20000 ∧
    (onCloseBody env code reason s).domInited = s.domInited ∧
    (onCloseBody env code reason s).nextId = s.nextId + 1 ∧
    (onCloseBody env code reason s).starterCalls = s.starterCalls ∧
    (onCloseBody env code reason s).connDot = Dot.fail :=
  ⟨rfl, rfl, rfl, rfl, rfl, rfl, rfl, rfl, rfl, rfl, rfl, rfl⟩

theorem inv_init : SysInv initState := by
  refine ⟨?_, ?_, ?_, ?_, ?_, ?_, ?_⟩ <;> simp [initState, SysInv] <;> norm_num

/-- One runtime step preserves the invariant. -/
theorem inv_step {s s' : Sys} {e : Ev} (h : SysInv s) (hs : stepEv e s = some s') :
    SysInv s' := by
  cases e with
  | domLoad a r =>
      simp only [stepEv] at hs
      split at hs
      · exact Option.noConfusion hs
      · rename_i hdm
        have hdm' : s.domInited = false := by
          cases hx : s.domInited
          · rfl
          · exact absurd hx hdm
        obtain ⟨hk1, hk2, hk3, hk4⟩ := h.2.2.2.2.2.2 hdm'
        have h1 : SysInv { s with domInited := true } := by
          obtain ⟨ha, hc, hd, hf, hg, hh, hk⟩ := h
          exact ⟨ha, hc, hd, hf, hg, hh, by intro hx; exact Bool.noConfusion hx⟩
        injection hs with hs
        split at hs
        · subst hs
          exact h1
        · subst hs
          exact h1
        · split at hs
          · subst hs
            exact inv_startLive h1 rfl hk1 hk3 _ r
          · subst hs
            exact h1
  | fireTimer t r =>
      simp only [stepEv] at hs
      split at hs
      · rename_i p hfind
        injection hs with hs
        subst hs
        obtain ⟨ha, hc, hd, hf, hg, hh, hk⟩ := h
        have hmem : p ∈ s.pendingReconnects := List.mem_of_find?_eq_some hfind
        have hpne : s.pendingReconnects ≠ [] := List.ne_nil_of_mem hmem
        have hop : s.openSockets = [] := by
          cases hx : s.openSockets with
          | nil => rfl
          | cons q l => exact absurd ((hd (by rw [hx]; simp)).1) hpne
        have hcp : s.closedPending = [] := by
          have hlen : 1 ≤ s.pendingReconnects.length := List.length_pos.mpr hpne
          have hzero : s.closedPending.length = 0 := by omega
          exact List.length_eq_zero.mp hzero
        have hdm : s.domInited = true := by
          cases hx : s.domInited
          · exact absurd (hk hx).2.1 hpne
          · rfl
        have h1 : SysInv
            { s with pendingReconnects :=
                s.pendingReconnects.filter (fun q => !(q.id = t)) } := by
          refine ⟨?_, hc, ?_, ?_, hg, hh, ?_⟩
          · have hlf :=
              List.length_filter_le (fun q : Handle => !(q.id = t)) s.pendingReconnects
            simp only [hcp, List.length_nil] at ha ⊢
            omega
          · intro hx
            exact absurd hop hx
          · intro q hq
            simp only [List.mem_filter] at hq
            exact hf q hq.1
          · intro hx
            simp only [hdm] at hx
            exact Bool.noConfusion hx
        exact inv_startLive h1 hdm hop hcp _ r
      · exact Option.noConfusion hs
  | deliverOpen i =>
      simp only [stepEv] at hs
      split at hs
      · injection hs with hs
        subst hs
        obtain ⟨ha, hc, hd, hf, hg, hh, hk⟩ := h
        obtain ⟨f1, f2, f3, f4, f5, f6, f7, f8, f9, f10, f11⟩ := onOpenBody_fields s
        refine ⟨?_, ?_, ?_, ?_, ?_, ?_, ?_⟩ <;>
          simp only [f1, f2, f3, f4, f5, f6, f7, f8, f9]
        · exact ha
        · exact hc
        · exact hd
        · exact hf
        · exact hg
        · norm_num
        · exact hk
      · exact Option.noConfusion hs
  | deliverMsg i d =>
      simp only [stepEv] at hs
      split at hs
      · rename_i p hfind
        injection hs with hs
        subst hs
        obtain ⟨f1, f2, f3, f4, f5, f6, f7, f8, f9, f10, f11⟩ := onMessage_fields p.env d s
        exact SysInv_transfer f1 f2 f3 f4 f5 f6 f7 f8 f9 h
      · exact Option.noConfusion hs
  | deliverErr i =>
      simp only [stepEv] at hs
      split at hs
      · injection hs with hs
        subst hs
        obtain ⟨f1, f2, f3, f4, f5, f6, f7, f8, f9, f10, f11, f12⟩ := onErrorBody_fields s
        exact SysInv_transfer f1 f2 f3 f4 f5 f6 f7 f8 f9 h
      · exact Option.noConfusion hs
  | deliverClose i code reason =>
      simp only [stepEv] at hs
      split at hs
      · rename_i p hfind
        injection hs with hs
        subst hs
        obtain ⟨ha, hc, hd, hf, hg, hh, hk⟩ := h
        have hmem : p ∈ s.openSockets := List.mem_of_find?_eq_some hfind
        have hone : s.openSockets ≠ [] := List.ne_nil_of_mem hmem
        obtain ⟨hp0, hcp0⟩ := hd hone
        have hpid : p.id = i := by
          have := List.find?_some hfind
          simpa using this
        have hofil : s.openSockets.filter (fun q => !(q.id = i)) = [] := by
          rw [List.filter_eq_nil_iff]
          intro q hq
          have h1 := hc q hq
          have h2 := hc p hmem
          rw [h2] at h1
          simp only [Option.some.injEq] at h1
          simp [← h1, hpid]
        obtain ⟨g1, g2, g3, g4, g5, g6, g7, g8, g9, g10, g11, g12⟩ :=
          onCloseBody_fields p.env code reason
            { s with openSockets := s.openSockets.filter (fun q => !(q.id = i)) }
        refine ⟨?_, ?_, ?_, ?_, ?_, ?_, ?_⟩
        · rw [g1, g2]
          simp [hp0, hcp0]
        · intro q hq
          rw [g3] at hq
          simp [hofil] at hq
        · intro hx
          rw [g3] at hx
          simp [hofil] at hx
        · intro q hq
          rw [g1] at hq
          rw [g5]
          simp only [hp0, List.mem_cons, List.not_mem_nil, or_false] at hq
          subst hq
          simp
        · simp only [g6, g7]
          exact hg
        · simp only [g8]
          have hb := backoffStep_bounds hh.1 hh.2
          exact ⟨hb.1, hb.2.1⟩
        · intro hx
          simp only [g9] at hx
          exact absurd (hk hx).1 hone
      · rename_i hfind0
        split at hs
        · rename_i p hfind
          injection hs with hs
          subst hs
          obtain ⟨ha, hc, hd, hf, hg, hh, hk⟩ := h
          have hmem : p ∈ s.closedPending := List.mem_of_find?_eq_some hfind
          have hone : s.closedPending ≠ [] := List.ne_nil_of_mem hmem
          have hpid : p.id = i := by
            have := List.find?_some hfind
            simpa using this
          have hop : s.openSockets = [] := by
            cases hx : s.openSockets with
            | nil => rfl
            | cons q l => exact absurd ((hd (by rw [hx]; simp)).2) hone
          have hp0 : s.pendingReconnects = [] := by
            have hlen : 1 ≤ s.closedPending.length := List.length_pos.mpr hone
            have hzero : s.pendingReconnects.length = 0 := by omega
            exact List.length_eq_zero.mp hzero
          have hsing : s.closedPending = [p] := by
            have hlen : s.closedPending.length = 1 := by
              have hlen1 : 1 ≤ s.closedPending.length := List.length_pos.mpr hone
              have hlen0 : s.pendingReconnects.length = 0 := by
                simp [hp0]
              omega
            obtain ⟨q, hq⟩ := List.length_eq_one.mp hlen
            rw [hq] at hmem
            simp only [List.mem_singleton] at hmem
            rw [hq, hmem]
          have hcfil : s.closedPending.filter (fun q => !(q.id = i)) = [] := by
            rw [hsing]
            simp [hpid]
          obtain ⟨g1, g2, g3, g4, g5, g6, g7, g8, g9, g10, g11, g12⟩ :=
            onCloseBody_fields p.env code reason
              { s with closedPending := s.closedPending.filter (fun q => !(q.id = i)) }
          refine ⟨?_, ?_, ?_, ?_, ?_, ?_, ?_⟩
          · rw [g1, g2]
            simp [hp0, hcfil]
          · intro q hq
            rw [g3] at hq
            simp [hop] at hq
          · intro hx
            rw [g3] at hx
            simp [hop] at hx
          · intro q hq
            rw [g1] at hq
            rw [g5]
            simp only [hp0, List.mem_cons, List.not_mem_nil, or_false] at hq
            subst hq
            simp
          · simp only [g6, g7]
            exact hg
          · simp only [g8]
            have hb := backoffStep_bounds hh.1 hh.2
            exact ⟨hb.1, hb.2.1⟩
          · intro hx
            simp only [g9] at hx
            exact absurd (hk hx).2.2.1 hone
        · exact Option.noConfusion hs
  | callStop =>
      simp only [stepEv] at hs
      injection hs with hs
      subst hs
      have h2 := inv_close (inv_stopKeepalive h)
      obtain ⟨ha, hc, hd, hf, hg, hh, hk⟩ := h2
      refine ⟨ha, hc, hd, hf, ?_, ?_, ?_⟩
      · intro hx
        have hx2 : (closeUserStreamWS (stopKeepalive s)).keepaliveTimer.isSome = true := hx
        have hU : (closeUserStreamWS (stopKeepalive s)).keepaliveTimer = none :=
          (close_unchanged (stopKeepalive s)).2.2.1
        rw [hU] at hx2
        exact Bool.noConfusion hx2
      · constructor <;> norm_num [stopBinanceUserStream]
      · exact fun hx => hk hx

theorem reach_inv {s : Sys} (h : Reach s) : SysInv s := by
  induction h with
  | init => exact inv_init
  | step e hr hs ih => exact inv_step ih hs

theorem jsStrEq_true {v : Option Json} {t : String} (h : jsStrEq v t = true) :
    v = some (Json.str t) := by
  unfold jsStrEq at h
  cases v with
  | none => exact Bool.noConfusion h
  | some x =>
      cases x <;> simp_all

theorem jsProp_some_obj {v : Json} {k : String} {x : Json}
    (h : jsProp v k = some x) : ∃ kvs, v = Json.obj kvs := by
  cases v <;> simp_all [jsProp]

/-- `closeUserStreamWS` never adds an open socket. -/
theorem close_open_subset (s : Sys) :
    ∀ p ∈ (closeUserStreamWS s).openSockets, p ∈ s.openSockets := by
  unfold closeUserStreamWS
  cases ht : s.userStreamReconnectTimer <;> simp only [ht] <;>
    cases hw : s.userStreamWS <;> simp only [hw] <;>
    first
      | (intro p hp; exact hp)
      | (split
         · intro p hp
           simp only [List.mem_filter] at hp
           exact hp.1
         · intro p hp
           exact hp)

/-- Every branch of `startBinanceUserStreamLive` leaves at most one socket
open. -/
theorem startLive_open_le_one {s : Sys} (h : SysInv s)
    (env : String) (resp : Option Json) :
    (startBinanceUserStreamLive env resp s).openSockets.length ≤ 1 := by
  have h0 : SysInv (setConnDot Dot.pending s) :=
    SysInv_transfer rfl rfl rfl rfl rfl rfl rfl rfl rfl h
  cases hst : s.streamStartedOnce with
  | true =>
      rw [startLive_started env resp hst, connect_spec]
      have := (close_runtime h0).2.1
      simp [this]
  | false =>
      obtain ⟨e1, e2, e3, e4, e5, e6, e7, e8, e9, e10, e11, e12, e13⟩ :=
        ensure_snd env resp (setConnDot Dot.pending s)
      have h1 : SysInv (ensureBinanceUserStreamStarted env resp (setConnDot Dot.pending s)).2 :=
        SysInv_transfer e1 e2 e3 e4 e5 e6 e7 e8 e9 h0
      cases hok : ensureOk resp with
      | false =>
          rw [startLive_fail env resp hst hok]
          have h2 : SysInv (stopKeepalive (setConnDot Dot.fail
              (ensureBinanceUserStreamStarted env resp (setConnDot Dot.pending s)).2)) :=
            inv_stopKeepalive (SysInv_transfer rfl rfl rfl rfl rfl rfl rfl rfl rfl h1)
          have := (close_runtime h2).2.1
          simp [this]
      | true =>
          rw [startLive_success env resp hst hok]
          have h2 : SysInv (startKeepalive env
              { (ensureBinanceUserStreamStarted env resp (setConnDot Dot.pending s)).2 with
                  streamStartedOnce := true }) :=
            inv_startKeepalive (inv_set_started h1) (by simp) env
          rw [connect_spec]
          have := (close_runtime h2).2.1
          simp [this]

/-- In every reachable state at most one socket is open. -/
theorem reach_open_le_one {s : Sys} (h : Reach s) : s.openSockets.length ≤ 1 := by
  induction h with
  | init => simp [initState]
  | step e hr hs ih =>
      rename_i s0 s1
      have hinv := reach_inv hr
      cases e with
      | domLoad a r =>
          simp only [stepEv] at hs
          split at hs
          · exact Option.noConfusion hs
          · rename_i hdm
            have hdm' : s0.domInited = false := by
              cases hx : s0.domInited
              · rfl
              · exact absurd hx hdm
            have h1 : SysInv { s0 with domInited := true } := by
              obtain ⟨ha, hc, hd, hf, hg, hh, hk⟩ := hinv
              exact ⟨ha, hc, hd, hf, hg, hh, by intro hx; exact Bool.noConfusion hx⟩
            injection hs with hs
            split at hs
            · subst hs
              exact ih
            · subst hs
              exact ih
            · split at hs
              · subst hs
                exact startLive_open_le_one h1 _ r
              · subst hs
                exact ih
      | fireTimer t r =>
          simp only [stepEv] at hs
          split at hs
          · rename_i p hfind
            injection hs with hs
            subst hs
            have h1 : SysInv
                { s0 with pendingReconnects :=
                    s0.pendingReconnects.filter (fun q => !(q.id = t)) } := by
              obtain ⟨ha, hc, hd, hf, hg, hh, hk⟩ := hinv
              refine ⟨?_, hc, ?_, ?_, hg, hh, ?_⟩
              · have hlf :=
                  List.length_filter_le (fun q : Handle => !(q.id = t)) s0.pendingReconnects
                simp only
                omega
              · intro hx
                obtain ⟨hp1, hp2⟩ := hd hx
                simp [hp1, hp2]
              · intro q hq
                simp only [List.mem_filter] at hq
                exact hf q hq.1
              · intro hx
                obtain ⟨k1, k2, k3, k4⟩ := hk hx
                simp [k1, k2, k3, k4]
            exact startLive_open_le_one h1 _ r
          · exact Option.noConfusion hs
      | deliverOpen i =>
          simp only [stepEv] at hs
          split at hs
          · injection hs with hs
            subst hs
            simpa [(onOpenBody_fields s0).2.2.1] using ih
          · exact Option.noConfusion hs
      | deliverMsg i d =>
          simp only [stepEv] at hs
          split at hs
          · rename_i p hfind
            injection hs with hs
            subst hs
            simpa [(onMessage_fields p.env d s0).2.2.1] using ih
          · exact Option.noConfusion hs
      | deliverErr i =>
          simp only [stepEv] at hs
          split at hs
          · injection hs with hs
            subst hs
            simpa [(onErrorBody_fields s0).2.2.1] using ih
          · exact Option.noConfusion hs
      | deliverClose i code reason =>
          simp only [stepEv] at hs
          split at hs
          · rename_i p hfind
            injection hs with hs
            subst hs
            rw [(onCloseBody_fields p.env code reason _).2.2.1]
            have hlf :=
              List.length_filter_le (fun q : Handle => !(q.id = i)) s0.openSockets
            simp only
            omega
          · split at hs
            · rename_i p hfind
              injection hs with hs
              subst hs
              rw [(onCloseBody_fields p.env code reason _).2.2.1]
              simpa using ih
            · exact Option.noConfusion hs
      | callStop =>
          simp only [stepEv] at hs
          injection hs with hs
          subst hs
          have hnil := (close_runtime (inv_stopKeepalive hinv)).2.1
          have hgoal : (stopBinanceUserStream s0).openSockets = [] := hnil
          simp [hgoal]

/-- `sLive` is reachable: page load followed by the auto-start with a
matching active exchange and a successful start acknowledgement. -/
theorem reach_sLive : Reach sLive :=
  Reach.step (Ev.domLoad (some activeResp) (some okResp)) Reach.init rfl

/-- The handler schedules exactly one 400 ms balance refresh on a
qualifying envelope and none otherwise. -/
theorem onMessage_refreshes (env : String) (d : WsData) (s : Sys) :
    (onMessage env d s).pendingRefreshes =
      if specQualifyingEnvelope d then 400 :: s.pendingRefreshes
      else s.pendingRefreshes := by
  unfold onMessage onMessageBody specQualifyingEnvelope
  cases d with
  | nonJson raw => simp [appendLog]
  | json v =>
      cases v
      case null => simp [jsProp, jsStrEq]
      case obj kvs =>
        by_cases h1 : jsStrEq (jsProp (Json.obj kvs) "type") "hello"
        · have he := jsStrEq_true h1
          simp [h1, he, appendLog, jsStrEq]
        · by_cases h2 : jsStrEq (jsProp (Json.obj kvs) "type") "status"
          · have he := jsStrEq_true h2
            simp [h1, h2, he, appendLog, setConnDot, jsStrEq]
          · by_cases h3 : jsStrEq (jsProp (Json.obj kvs) "type") "error"
            · have he := jsStrEq_true h3
              simp [h1, h2, h3, he, appendLog, setConnDot, jsStrEq]
            · by_cases h4 : jsStrEq (jsProp (Json.obj kvs) "type") "binance_event"
              · simp only [h1, h2, h3, h4, Bool.false_eq_true, if_false, if_true,
                  Bool.true_and]
                split <;> rename_i hc <;> simp [hc, appendLog, setConnDot]
              · simp [h1, h2, h3, h4, appendLog]
      all_goals simp [appendLog, jsProp, jsStrEq]

/-- Folding the handler over a frame sequence schedules one refresh per
qualifying envelope, with no coalescing. -/
theorem processMessages_refreshes (env : String) (ds : List WsData) (s : Sys) :
    (processMessages env ds s).pendingRefreshes.length =
      ds.countP specQualifyingEnvelope + s.pendingRefreshes.length := by
  induction ds generalizing s with
  | nil => simp [processMessages]
  | cons d ds ih =>
      have hm := onMessage_refreshes env d s
      unfold processMessages at ih ⊢
      simp only [List.foldl_cons]
      rw [ih, List.countP_cons]
      by_cases hq : specQualifyingEnvelope d <;>
        simp [hm, hq] <;> omega

/-- C1: for every sequence of transport close events with no intervening
successful open, the reconnect delay starts at the floor (1500 ms), is
monotonically non-decreasing across consecutive closes (each close
multiplies it by 1.6, capped at 20000 ms), never exceeds the ceiling
20000 ms, and a successful transport open resets it to the floor 1500 ms. -/
theorem backoff_floor_monotone_capped_reset :
    initState.reconnectDelayMs = 1500 ∧
    (∀ s, Reach s → 1500 ≤ s.reconnectDelayMs ∧ s.reconnectDelayMs ≤ 20000) ∧
    (∀ s s' i code reason, Reach s →
      stepEv (Ev.deliverClose i code reason) s = some s' →
      s'.reconnectDelayMs = min (s.reconnectDelayMs * (8 / 5 : ℚ)) 20000 ∧
      s.reconnectDelayMs ≤ s'.reconnectDelayMs ∧ s'.reconnectDelayMs ≤ 20000) ∧
    (∀ s s' i, stepEv (Ev.deliverOpen i) s = some s' →
      s'.reconnectDelayMs = 1500) := by
  refine ⟨rfl, ?_, ?_, ?_⟩
  · intro s hr
    exact (reach_inv hr).2.2.2.2.2.1
  · intro s s' i code reason hr hs
    have hh := (reach_inv hr).2.2.2.2.2.1
    have hb := backoffStep_bounds hh.1 hh.2
    simp only [stepEv] at hs
    split at hs
    · rename_i p hfind
      injection hs with hs
      subst hs
      have g8 := (onCloseBody_fields p.env code reason
        { s with openSockets :=
            s.openSockets.filter (fun q => !(q.id = i)) }).2.2.2.2.2.2.2.1
      exact ⟨g8, by rw [g8]; exact hb.2.2, by rw [g8]; exact hb.2.1⟩
    · split at hs
      · rename_i p hfind
        injection hs with hs
        subst hs
        have g8 := (onCloseBody_fields p.env code reason
          { s with closedPending :=
              s.closedPending.filter (fun q => !(q.id = i)) }).2.2.2.2.2.2.2.1
        exact ⟨g8, by rw [g8]; exact hb.2.2, by rw [g8]; exact hb.2.1⟩
      · exact Option.noConfusion hs
  · intro s s' i hs
    simp only [stepEv] at hs
    split at hs
    · injection hs with hs
      subst hs
      exact (onOpenBody_fields s).2.2.2.2.2.2.2.1
    · exact Option.noConfusion hs

/-- Witness for C1: the concrete reachable live state, and the concrete
close of its socket. -/
theorem backoff_floor_monotone_capped_reset_witness :
    (1500 ≤ sLive.reconnectDelayMs ∧ sLive.reconnectDelayMs ≤ 20000) ∧
    sClosed.reconnectDelayMs = min (sLive.reconnectDelayMs * (8 / 5 : ℚ)) 20000 ∧
    sLive.reconnectDelayMs ≤ sClosed.reconnectDelayMs ∧
    sClosed.reconnectDelayMs ≤ 20000 :=
  ⟨backoff_floor_monotone_capped_reset.2.1 sLive reach_sLive,
   backoff_floor_monotone_capped_reset.2.2.1 sLive sClosed 1 1006 "" reach_sLive rfl⟩

/-- C2: `stopBinanceUserStream` from any state leaves no socket handle, no
reconnect timer, no keepalive schedule, `started = false`, and the delay
back at the floor; in reachable states the runtime holds no pending
reconnect timeout and no open socket afterwards either.  (The function is
total — the only JS call that can throw, `ws.close()`, sits inside the
`try`/`catch` modelled in `closeUserStreamWS`.) -/
theorem stop_clears_manager :
    (∀ s,
      (stopBinanceUserStream s).userStreamWS = none ∧
      (stopBinanceUserStream s).userStreamReconnectTimer = none ∧
      (stopBinanceUserStream s).keepaliveTimer = none ∧
      (stopBinanceUserStream s).streamStartedOnce = false ∧
      (stopBinanceUserStream s).reconnectDelayMs = 1500) ∧
    (∀ s, Reach s →
      (stopBinanceUserStream s).pendingReconnects = [] ∧
      (stopBinanceUserStream s).openSockets = []) := by
  constructor
  · intro s
    refine ⟨?_, ?_, ?_, rfl, rfl⟩
    · exact close_userStreamWS (stopKeepalive s)
    · exact close_userStreamReconnectTimer (stopKeepalive s)
    · exact (close_unchanged (stopKeepalive s)).2.2.1
  · intro s hr
    have h2 := close_runtime (inv_stopKeepalive (reach_inv hr))
    exact ⟨h2.1, h2.2.1⟩

/-- Witness for C2 at the concrete reachable live state. -/
theorem stop_clears_manager_witness :
    (stopBinanceUserStream sLive).userStreamWS = none ∧
    (stopBinanceUserStream sLive).pendingReconnects = [] :=
  ⟨(stop_clears_manager.1 sLive).1, (stop_clears_manager.2 sLive reach_sLive).1⟩

/-- C3: `connectUserStreamWS` first cancels any pending reconnect timeout
and force-closes any existing socket (neither survives
`closeUserStreamWS`), and only then opens the new transport — the new
state holds exactly the one new socket and no reconnect timer; in every
reachable state the runtime has at most one open socket and at most one
pending reconnect timeout. -/
theorem connect_single_socket_single_timer :
    (∀ s,
      (closeUserStreamWS s).userStreamReconnectTimer = none ∧
      (closeUserStreamWS s).userStreamWS = none ∧
      (∀ t, s.userStreamReconnectTimer = some t →
        ∀ p ∈ (closeUserStreamWS s).pendingReconnects, p.id ≠ t) ∧
      (∀ w, s.userStreamWS = some w →
        ∀ p ∈ (closeUserStreamWS s).openSockets, p.id ≠ w)) ∧
    (∀ env s,
      connectUserStreamWS env s =
        { closeUserStreamWS s with
            connDot := Dot.pending
            log := LogEvent.connecting env :: (closeUserStreamWS s).log
            userStreamWS := some (closeUserStreamWS s).nextId
            openSockets :=
              ⟨(closeUserStreamWS s).nextId, env⟩ :: (closeUserStreamWS s).openSockets
            nextId := (closeUserStreamWS s).nextId + 1 } ∧
      (connectUserStreamWS env s).userStreamReconnectTimer = none ∧
      (connectUserStreamWS env s).userStreamWS = some (closeUserStreamWS s).nextId) ∧
    (∀ s, Reach s →
      s.openSockets.length ≤ 1 ∧ s.pendingReconnects.length ≤ 1) := by
  refine ⟨?_, ?_, ?_⟩
  · intro s
    exact ⟨close_userStreamReconnectTimer s, close_userStreamWS s,
      fun t ht => close_cancels_old ht, fun w hw => close_closes_old hw⟩
  · intro env s
    exact ⟨connect_spec env s, close_userStreamReconnectTimer s, rfl⟩
  · intro s hr
    have ha := (reach_inv hr).1
    exact ⟨reach_open_le_one hr, by omega⟩

/-- Witness for C3 at the concrete reachable live state. -/
theorem connect_single_socket_single_timer_witness :
    sLive.openSockets.length ≤ 1 ∧ sLive.pendingReconnects.length ≤ 1 :=
  connect_single_socket_single_timer.2.2 sLive reach_sLive

/-- C4: after the starter has returned true for the session, the started
flag is set and every subsequent `startBinanceUserStreamLive` performs no
starter call and goes straight to the socket connect; in particular the
second of two back-to-back calls adds no starter invocation. -/
theorem startLive_calls_starter_once :
    ∀ env env' resp resp' s,
      s.streamStartedOnce = false → ensureOk resp = true →
      ((startBinanceUserStreamLive env resp s).starterCalls = s.starterCalls + 1 ∧
        (startBinanceUserStreamLive env resp s).streamStartedOnce = true) ∧
      (∀ t : Sys, t.streamStartedOnce = true →
        (startBinanceUserStreamLive env' resp' t).starterCalls = t.starterCalls ∧
        (startBinanceUserStreamLive env' resp' t).userStreamWS = some t.nextId) ∧
      ((startBinanceUserStreamLive env' resp'
          (startBinanceUserStreamLive env resp s)).starterCalls =
        (startBinanceUserStreamLive env resp s).starterCalls) := by
  intro env env' resp resp' s h0 hok
  obtain ⟨e1, e2, e3, e4, e5, e6, e7, e8, e9, e10, e11, e12, e13⟩ :=
    ensure_snd env resp (setConnDot Dot.pending s)
  have hshape := startLive_success env resp h0 hok
  have hstarted : (startBinanceUserStreamLive env resp s).streamStartedOnce = true := by
    rw [hshape, connect_spec, (close_unchanged _).2.1]
    rfl
  have hcalls :
      (startBinanceUserStreamLive env resp s).starterCalls = s.starterCalls + 1 := by
    rw [hshape, connect_spec, (close_unchanged _).2.2.2.2.2.2.1]
    exact e13
  have hskip : ∀ t : Sys, t.streamStartedOnce = true →
      (startBinanceUserStreamLive env' resp' t).starterCalls = t.starterCalls ∧
      (startBinanceUserStreamLive env' resp' t).userStreamWS = some t.nextId := by
    intro t ht
    rw [startLive_started env' resp' ht, connect_spec]
    constructor
    · rw [(close_unchanged _).2.2.2.2.2.2.1]
      rfl
    · rw [(close_unchanged (setConnDot Dot.pending t)).2.2.2.2.1]
      rfl
  exact ⟨⟨hcalls, hstarted⟩, hskip, (hskip _ hstarted).1⟩

/-- Witness for C4: two back-to-back successful calls from the initial
state. -/
theorem startLive_calls_starter_once_witness :
    (startBinanceUserStreamLive "testnet" (some okResp) initState).streamStartedOnce =
      true ∧
    (startBinanceUserStreamLive "testnet" (some okResp)
        (startBinanceUserStreamLive "testnet" (some okResp) initState)).starterCalls =
      (startBinanceUserStreamLive "testnet" (some okResp) initState).starterCalls :=
  ⟨((startLive_calls_starter_once "testnet" "testnet" (some okResp) (some okResp)
      initState rfl rfl).1).2,
   (startLive_calls_starter_once "testnet" "testnet" (some okResp) (some okResp)
      initState rfl rfl).2.2⟩

/-- C5: a false starter acknowledgement halts the manager: indicator
`fail`, keepalive stopped, socket handle cleared, no new socket opened (the
handle counter does not move and no new socket appears), and in every
reachable state the keepalive schedule only exists after the starter has
succeeded. -/
theorem starter_failure_halts :
    (∀ env resp s, s.streamStartedOnce = false → ensureOk resp = false →
      (startBinanceUserStreamLive env resp s).connDot = Dot.fail ∧
      (startBinanceUserStreamLive env resp s).keepaliveTimer = none ∧
      (startBinanceUserStreamLive env resp s).userStreamWS = none ∧
      (startBinanceUserStreamLive env resp s).streamStartedOnce = false ∧
      (startBinanceUserStreamLive env resp s).nextId = s.nextId ∧
      (∀ p ∈ (startBinanceUserStreamLive env resp s).openSockets,
        p ∈ s.openSockets)) ∧
    (∀ s, Reach s → s.keepaliveTimer.isSome = true → s.streamStartedOnce = true) := by
  constructor
  · intro env resp s h0 hok
    rw [startLive_fail env resp h0 hok]
    obtain ⟨e1, e2, e3, e4, e5, e6, e7, e8, e9, e10, e11, e12, e13⟩ :=
      ensure_snd env resp (setConnDot Dot.pending s)
    refine ⟨?_, ?_, ?_, ?_, ?_, ?_⟩
    · rw [(close_unchanged _).2.2.2.1]
      rfl
    · exact (close_unchanged _).2.2.1
    · exact close_userStreamWS _
    · rw [(close_unchanged _).2.1]
      exact e7.trans h0
    · rw [(close_unchanged _).2.2.2.2.1]
      exact e11
    · intro p hp
      have hp2 := close_open_subset _ p hp
      have hp3 : p ∈ (ensureBinanceUserStreamStarted env resp
          (setConnDot Dot.pending s)).2.openSockets := hp2
      rw [e3] at hp3
      exact hp3
  · intro s hr
    exact (reach_inv hr).2.2.2.2.1

/-- Witness for C5: the rejected start acknowledgement at the initial
state, and the keepalive gate at the live state. -/
theorem starter_failure_halts_witness :
    (startBinanceUserStreamLive "testnet" (some failResp) initState).connDot =
      Dot.fail ∧
    (startBinanceUserStreamLive "testnet" (some failResp) initState).keepaliveTimer =
      none ∧
    sLive.streamStartedOnce = true :=
  ⟨(starter_failure_halts.1 "testnet" (some failResp) initState rfl rfl).1,
   (starter_failure_halts.1 "testnet" (some failResp) initState rfl rfl).2.1,
   starter_failure_halts.2 sLive reach_sLive rfl⟩

/-- C6: per received envelope, exactly one balance refresh is scheduled
after a fixed 400 ms delay when the frame qualifies (a `binance_event`
with inner type `outboundAccountPosition` or `balanceUpdate`), zero
otherwise; over any frame sequence the number of scheduled refreshes is
exactly the number of qualifying envelopes — no coalescing. -/
theorem binance_event_refresh_scheduling :
    (∀ env s d, specQualifyingEnvelope d = true →
      (onMessage env d s).pendingRefreshes = 400 :: s.pendingRefreshes) ∧
    (∀ env s d, specQualifyingEnvelope d = false →
      (onMessage env d s).pendingRefreshes = s.pendingRefreshes) ∧
    (∀ env s ds, (processMessages env ds s).pendingRefreshes.length =
      ds.countP specQualifyingEnvelope + s.pendingRefreshes.length) := by
  refine ⟨?_, ?_, fun env s ds => processMessages_refreshes env ds s⟩
  · intro env s d hq
    rw [onMessage_refreshes, if_pos hq]
  · intro env s d hq
    rw [onMessage_refreshes, if_neg (by simp [hq])]

/-- Witness for C6: a qualifying `balanceUpdate` envelope schedules one
400 ms refresh; a `status` envelope schedules none. -/
theorem binance_event_refresh_scheduling_witness :
    (onMessage "testnet" (WsData.json balanceUpdateMsg) initState).pendingRefreshes =
      400 :: initState.pendingRefreshes ∧
    (onMessage "testnet" (WsData.json statusTrueMsg) initState).pendingRefreshes =
      initState.pendingRefreshes :=
  ⟨binance_event_refresh_scheduling.1 "testnet" initState
      (WsData.json balanceUpdateMsg) rfl,
   binance_event_refresh_scheduling.2.1 "testnet" initState
      (WsData.json statusTrueMsg) rfl⟩

/-- Shared: the `status` branch sets the indicator from the truthiness of
the `connected` field. -/
theorem onMessage_status_dot (env : String) (s : Sys) {msg : Json} {co : Option Json}
    (hty : jsProp msg "type" = some (Json.str "status"))
    (hco : jsProp msg "connected" = co) :
    (onMessage env (WsData.json msg) s).connDot =
      if truthyO co then Dot.ok else Dot.fail := by
  obtain ⟨kvs, rfl⟩ := jsProp_some_obj hty
  have h1 : jsStrEq (jsProp (Json.obj kvs) "type") "hello" = false := by
    rw [hty]
    simp [jsStrEq]
  have h2 : jsStrEq (jsProp (Json.obj kvs) "type") "status" = true := by
    rw [hty]
    simp [jsStrEq]
  unfold onMessage onMessageBody
  simp [h1, h2, hco, appendLog, setConnDot]

/-- C7: a `status` envelope (its `connected` field boolean or absent, per
the backend envelope shape) sets the indicator to `ok` exactly when
`connected` is true and `fail` otherwise; an `error` envelope always sets
the indicator to `fail`. -/
theorem status_error_indicator :
    (∀ env s msg co b, jsProp msg "type" = some (Json.str "status") →
      jsProp msg "connected" = co →
      (co = some (Json.bool b) ∨ (co = none ∧ b = false)) →
      (onMessage env (WsData.json msg) s).connDot =
        if b then Dot.ok else Dot.fail) ∧
    (∀ env s msg, jsProp msg "type" = some (Json.str "error") →
      (onMessage env (WsData.json msg) s).connDot = Dot.fail) := by
  constructor
  · intro env s msg co b hty hco hb
    rw [onMessage_status_dot env s hty hco]
    rcases hb with rfl | ⟨rfl, rfl⟩
    · simp [truthyO, truthy]
    · simp [truthyO]
  · intro env s msg hty
    obtain ⟨kvs, rfl⟩ := jsProp_some_obj hty
    have h1 : jsStrEq (jsProp (Json.obj kvs) "type") "hello" = false := by
      rw [hty]
      simp [jsStrEq]
    have h2 : jsStrEq (jsProp (Json.obj kvs) "type") "status" = false := by
      rw [hty]
      simp [jsStrEq]
    have h3 : jsStrEq (jsProp (Json.obj kvs) "type") "error" = true := by
      rw [hty]
      simp [jsStrEq]
    unfold onMessage onMessageBody
    simp [h1, h2, h3, appendLog, setConnDot]

/-- Witness for C7: concrete `status` and `error` envelopes. -/
theorem status_error_indicator_witness :
    (onMessage "testnet" (WsData.json statusTrueMsg) initState).connDot = Dot.ok ∧
    (onMessage "testnet" (WsData.json errorMsg) initState).connDot = Dot.fail :=
  ⟨by
    have h := status_error_indicator.1 "testnet" initState statusTrueMsg
      (some (Json.bool true)) true rfl rfl (Or.inl rfl)
    simpa using h,
   status_error_indicator.2 "testnet" initState errorMsg rfl⟩

theorem ensureOk_some {v : Json} (hv : v ≠ Json.null) :
    ensureOk (some v) = truthyO (jsProp v "ok") := by
  cases v <;> simp_all [ensureOk]

/-- The starter appends exactly one line, and on every `false` path that
line reports a failure. -/
theorem ensure_log (env : String) (resp : Option Json) (s : Sys) :
    ∃ e, ((ensureBinanceUserStreamStarted env resp s).2).log = e :: s.log ∧
      ((ensureBinanceUserStreamStarted env resp s).1 = false →
        isStartFailureLog e = true) := by
  unfold ensureBinanceUserStreamStarted
  cases resp with
  | none => exact ⟨LogEvent.streamStartFailed, rfl, fun _ => rfl⟩
  | some v =>
      cases v <;>
        first
          | exact ⟨LogEvent.streamStartFailed, rfl, fun _ => rfl⟩
          | (simp only [appendLog]
             split
             · exact ⟨_, rfl, fun hc => Bool.noConfusion hc⟩
             · exact ⟨_, rfl, fun _ => rfl⟩)

/-- C8: the starter returns true exactly on a positive acknowledgement
(`ok = true` under the backend's `{ok: bool}` response shape) and false in
every other case — a network or parse failure and a `null` body (whose
`ok` read throws inside the `try`) are treated like a negative
acknowledgement; every `false` path appends a failure log line; the
function is total, so it never throws. -/
theorem ensure_started_ack_semantics :
    (∀ env resp s, respOkWellTyped resp →
      ((ensureBinanceUserStreamStarted env resp s).1 = true ↔
        ∃ data, resp = some data ∧ jsProp data "ok" = some (Json.bool true))) ∧
    (∀ env s, (ensureBinanceUserStreamStarted env none s).1 = false) ∧
    (∀ env s, (ensureBinanceUserStreamStarted env (some Json.null) s).1 = false) ∧
    (∀ env resp s, (ensureBinanceUserStreamStarted env resp s).1 = false →
      ∃ e, ((ensureBinanceUserStreamStarted env resp s).2).log = e :: s.log ∧
        isStartFailureLog e = true) := by
  refine ⟨?_, ?_, ?_, ?_⟩
  · intro env resp s hwt
    rw [ensure_fst]
    cases resp with
    | none => simp [ensureOk]
    | some v =>
        by_cases hv : v = Json.null
        · subst hv
          simp [ensureOk, jsProp]
        · rw [ensureOk_some hv]
          cases hjs : jsProp v "ok" with
          | none => simp [truthyO, hjs]
          | some x =>
              obtain ⟨b, rfl⟩ := hwt v rfl x hjs
              cases b <;> simp [truthyO, truthy, hjs]
  · intro env s
    rw [ensure_fst]
    rfl
  · intro env s
    rw [ensure_fst]
    rfl
  · intro env resp s hfalse
    obtain ⟨e, h1, h2⟩ := ensure_log env resp s
    exact ⟨e, h1, h2 hfalse⟩

/-- Witness for C8: a positive acknowledgement and a network failure. -/
theorem ensure_started_ack_semantics_witness :
    (ensureBinanceUserStreamStarted "testnet" (some okResp) initState).1 = true ∧
    (ensureBinanceUserStreamStarted "testnet" none initState).1 = false :=
  ⟨(ensure_started_ack_semantics.1 "testnet" (some okResp) initState
      (by
        intro data hd v hv
        rw [Option.some.injEq] at hd
        subst hd
        simp only [okResp, jsProp] at hv
        exact ⟨true, by simpa using hv.symm⟩)).mpr ⟨okResp, rfl, rfl⟩,
   ensure_started_ack_semantics.2.1 "testnet" initState⟩

/-- C9: a transport error event only logs and drives the indicator to
`fail` — it changes no handle, no timer, no delay, and no flag; only the
subsequent close event schedules recovery, so an error-then-close pair on
a reachable live socket ends with exactly one pending reconnect timeout. -/
theorem error_event_no_reconnect :
    (∀ s s' i, stepEv (Ev.deliverErr i) s = some s' →
      s'.userStreamWS = s.userStreamWS ∧
      s'.userStreamReconnectTimer = s.userStreamReconnectTimer ∧
      s'.pendingReconnects = s.pendingReconnects ∧
      s'.openSockets = s.openSockets ∧
      s'.closedPending = s.closedPending ∧
      s'.reconnectDelayMs = s.reconnectDelayMs ∧
      s'.streamStartedOnce = s.streamStartedOnce ∧
      s'.keepaliveTimer = s.keepaliveTimer ∧
      s'.connDot = Dot.fail) ∧
    (∀ s s1 s2 i code reason, Reach s →
      stepEv (Ev.deliverErr i) s = some s1 →
      stepEv (Ev.deliverClose i code reason) s1 = some s2 →
      s2.pendingReconnects.length = 1) := by
  constructor
  · intro s s' i hs
    simp only [stepEv] at hs
    split at hs
    · injection hs with hs
      subst hs
      exact ⟨rfl, rfl, rfl, rfl, rfl, rfl, rfl, rfl, rfl⟩
    · exact Option.noConfusion hs
  · intro s s1 s2 i code reason hr hserr hsclose
    simp only [stepEv] at hserr
    split at hserr
    · rename_i hany
      injection hserr with hserr
      subst hserr
      rw [List.any_eq_true] at hany
      obtain ⟨q, hqmem, hqid⟩ := hany
      simp only [decide_eq_true_eq] at hqid
      have hone : s.openSockets ≠ [] := List.ne_nil_of_mem hqmem
      have hp0 := ((reach_inv hr).2.2.1 hone).1
      simp only [stepEv] at hsclose
      split at hsclose
      · rename_i p hfind
        injection hsclose with hsclose
        subst hsclose
        rw [(onCloseBody_fields p.env code reason _).1]
        simp [onErrorBody, appendLog, setConnDot, hp0]
      · rename_i hfind0
        exfalso
        rw [List.find?_eq_none] at hfind0
        have hq2 : q ∈ (onErrorBody s).openSockets := hqmem
        have := hfind0 q hq2
        simp only [decide_eq_true_eq] at this
        exact this hqid
    · exact Option.noConfusion hserr

/-- Witness for C9: the error-then-close pair on the concrete reachable
live state. -/
theorem error_event_no_reconnect_witness :
    sErr.pendingReconnects = sLive.pendingReconnects ∧
    sErr.connDot = Dot.fail ∧
    sErrClosed.pendingReconnects.length = 1 :=
  ⟨(error_event_no_reconnect.1 sLive sErr 1 rfl).2.2.1,
   (error_event_no_reconnect.1 sLive sErr 1 rfl).2.2.2.2.2.2.2.2,
   error_event_no_reconnect.2 sLive sErr sErrClosed 1 1006 "" reach_sLive rfl rfl⟩

/-- C10 counterexample: the claim fails on the code in two places.  A
frame that parses to JSON `null` makes the handler throw (reading
`msg.type` on `null` raises a `TypeError` that nothing catches), and a
`status` envelope with the non-boolean `connected: 1` sets the indicator
to `ok`, not `fail` — `!!1` is `true`. -/
theorem onmessage_total_counterexample :
    onMessageBody "testnet" (WsData.json Json.null) initState = Except.error () ∧
    (onMessage "testnet" (WsData.json statusNum1) initState).connDot = Dot.ok :=
  ⟨rfl, rfl⟩

/-- C10 amended: non-JSON data is logged and dropped; the handler throws
only on parsed JSON `null` (before any state change) and runs to
completion on every other JSON value; a `status` envelope sets the
indicator to `ok` exactly when its `connected` field is truthy (missing or
falsy means not connected, a truthy non-boolean means connected); a
`binance_event` with missing `data` logs the inner type as
`unknown_event`, still sets the indicator to `ok`, and schedules no
refresh; an unrecognized type tag is logged verbatim with no other state
change. -/
theorem onmessage_totality_amended :
    (∀ env raw s, onMessageBody env (WsData.nonJson raw) s =
      Except.ok (appendLog (LogEvent.nonJson (raw.take 200)) s)) ∧
    (∀ env s (v : Json), v ≠ Json.null →
      ∃ s', onMessageBody env (WsData.json v) s = Except.ok s') ∧
    (∀ env s msg co, jsProp msg "type" = some (Json.str "status") →
      jsProp msg "connected" = co →
      (onMessage env (WsData.json msg) s).connDot =
        if truthyO co then Dot.ok else Dot.fail) ∧
    (∀ env s msg, jsProp msg "type" = some (Json.str "binance_event") →
      jsProp msg "data" = none →
      (onMessage env (WsData.json msg) s).connDot = Dot.ok ∧
      (onMessage env (WsData.json msg) s).pendingRefreshes = s.pendingRefreshes ∧
      (onMessage env (WsData.json msg) s).log =
        LogEvent.binanceEvent (Json.str "unknown_event") :: s.log) ∧
    (∀ env s msg ty, jsProp msg "type" = some ty →
      jsStrEq (some ty) "hello" = false → jsStrEq (some ty) "status" = false →
      jsStrEq (some ty) "error" = false →
      jsStrEq (some ty) "binance_event" = false →
      onMessage env (WsData.json msg) s =
        appendLog (LogEvent.otherMessage msg) s) := by
  refine ⟨?_, ?_, ?_, ?_, ?_⟩
  · intro env raw s
    rfl
  · intro env s v hv
    unfold onMessageBody
    cases v
    case null => exact absurd rfl hv
    all_goals exact ⟨_, rfl⟩
  · intro env s msg co hty hco
    exact onMessage_status_dot env s hty hco
  · intro env s msg hty hdata
    obtain ⟨kvs, rfl⟩ := jsProp_some_obj hty
    have h1 : jsStrEq (jsProp (Json.obj kvs) "type") "hello" = false := by
      rw [hty]
      simp [jsStrEq]
    have h2 : jsStrEq (jsProp (Json.obj kvs) "type") "status" = false := by
      rw [hty]
      simp [jsStrEq]
    have h3 : jsStrEq (jsProp (Json.obj kvs) "type") "error" = false := by
      rw [hty]
      simp [jsStrEq]
    have h4 : jsStrEq (jsProp (Json.obj kvs) "type") "binance_event" = true := by
      rw [hty]
      simp [jsStrEq]
    unfold onMessage onMessageBody
    simp only [h1, h2, h3, h4, Bool.false_eq_true, if_false, if_true]
    rw [hdata]
    simp [jsOr, jsProp, jsIsStr, appendLog, setConnDot]
  · intro env s msg ty hty hne1 hne2 hne3 hne4
    obtain ⟨kvs, rfl⟩ := jsProp_some_obj hty
    have h1 : jsStrEq (jsProp (Json.obj kvs) "type") "hello" = false := by
      rw [hty]
      exact hne1
    have h2 : jsStrEq (jsProp (Json.obj kvs) "type") "status" = false := by
      rw [hty]
      exact hne2
    have h3 : jsStrEq (jsProp (Json.obj kvs) "type") "error" = false := by
      rw [hty]
      exact hne3
    have h4 : jsStrEq (jsProp (Json.obj kvs) "type") "binance_event" = false := by
      rw [hty]
      exact hne4
    unfold onMessage onMessageBody
    simp [h1, h2, h3, h4, appendLog]

/-- Witness for the amended C10: the non-boolean truthy `connected: 1`
and the `binance_event` with missing `data`. -/
theorem onmessage_totality_amended_witness :
    (onMessage "testnet" (WsData.json statusNum1) initState).connDot =
      (if truthyO (some (Json.num 1)) then Dot.ok else Dot.fail) ∧
    (onMessage "testnet" (WsData.json bareBinanceMsg) initState).pendingRefreshes =
      initState.pendingRefreshes :=
  ⟨onmessage_totality_amended.2.2.1 "testnet" initState statusNum1
      (some (Json.num 1)) rfl rfl,
   (onmessage_totality_amended.2.2.2.1 "testnet" initState bareBinanceMsg
      rfl rfl).2.1⟩

end AccuBot
